import Mathlib

/-!
Verification development for sarpy utility routines:
`sarpy/io/general/utils.py` (validate_range, reverse_range, parse_timestring,
get_seconds, parse_xml_from_string) and
`sarpy/io/complex/naming/iceye.py` (get_commercial_id).

Conventions: a Python `ValueError` (or `IndexError`) is modelled as
`Option.none`; Python machine behaviour (numpy int64 wraparound) is modelled
explicitly where it matters.
-/

/-- The range argument accepted by `validate_range`:
`None`, a single integer, a 1-tuple, a 2-tuple `(stop, step)`, or a
3-tuple `(start, stop, step)`. -/
inductive RangeArg where
  | noneArg : RangeArg
  | intArg : Int → RangeArg
  | tuple1 : Int → RangeArg
  | tuple2 : Int → Int → RangeArg
  | tuple3 : Int → Int → Int → RangeArg
deriving DecidableEq, Repr

/-- The dispatch at the top of `validate_range`: extract the optional
`start`, `stop`, `step` from the argument form. -/
def extractRange : RangeArg → Option Int × Option Int × Option Int
  | RangeArg.noneArg => (none, none, none)
  | RangeArg.intArg k => (none, none, some k)
  | RangeArg.tuple1 a => (none, none, some a)
  | RangeArg.tuple2 a b => (none, some a, some b)
  | RangeArg.tuple3 a b c => (some a, some b, some c)

/-- Reform a negative index by the axis length (`if x < 0: x += siz`). -/
def wrapIdx (x siz : Int) : Int :=
  if x < 0 then x + siz else x

/-- The body of `validate_range` after defaulting: bounds checks on
`start`, `stop`, `step`, the direction check, then wraparound of negative
`start`/`stop` by `siz`.  `none` models the raised `ValueError`. -/
def validate_core (start stop step siz : Int) : Option (Int × Int × Int) :=
  if ¬ (-siz < start ∧ start < siz) then none
  else if ¬ (-siz < stop ∧ stop ≤ siz) then none
  else if ¬ ((0 < step ∧ step < siz) ∨ (-siz < step ∧ step < 0)) then none
  else if (step < 0 ∧ stop > start) ∨ (step > 0 ∧ start > stop) then none
  else
    some (wrapIdx start siz, wrapIdx stop siz, step)

/-- `validate_range(arg, siz)` from `sarpy/io/general/utils.py`:
defaults are `start = 0`, `stop = siz`, `step = 1`. -/
def validate_range (arg : RangeArg) (siz : Int) : Option (Int × Int × Int) :=
  match extractRange arg with
  | (a, b, c) => validate_core (a.getD 0) (b.getD siz) (c.getD 1) siz

/-- `reverse_range(arg, siz)` from `sarpy/io/general/utils.py`: validate,
then reflect about `siz - 1` and negate the step. -/
def reverse_range (arg : RangeArg) (siz : Int) : Option (Int × Int × Int) :=
  (validate_range arg siz).map
    (fun t => ((siz - 1) - t.1, (siz - 1) - t.2.1, -t.2.2))

/-- Number of elements of Python `range(start, stop, step)` (for nonzero
step): `max 0 (ceil ((stop - start) / step))`. -/
def pythonRangeLen (start stop step : Int) : Nat :=
  if 0 < step then (((stop - start) + step - 1) / step).toNat
  else if step < 0 then (((start - stop) + (-step) - 1) / (-step)).toNat
  else 0

/-- The traversal list of Python `range(start, stop, step)`. -/
def rangeList (start stop step : Int) : List Int :=
  (List.range (pythonRangeLen start stop step)).map
    (fun i => start + step * (i : Int))

/-- Pack a normalized triple back into a 3-tuple range argument. -/
def tripleArg (t : Int × Int × Int) : RangeArg :=
  RangeArg.tuple3 t.1 t.2.1 t.2.2

/-- The double-reversal chain of claim C4: `reverse_range`, re-normalize the
result with `validate_range`, then `reverse_range` again. -/
def reverseTwice (arg : RangeArg) (siz : Int) : Option (Int × Int × Int) :=
  (reverse_range arg siz).bind
    (fun t1 => (validate_range (tripleArg t1) siz).bind
      (fun t2 => reverse_range (tripleArg t2) siz))

/-- numpy int64 arithmetic: reduce an integer into `[-2^63, 2^63)` by
wraparound, as `tdt1.astype('int64') - tdt2.astype('int64')` does
(`9223372036854775808 = 2^63`, `18446744073709551616 = 2^64`). -/
def wrap64 (x : Int) : Int :=
  (x + 9223372036854775808) % 18446744073709551616 - 9223372036854775808

/-- The precision-to-scale lookup at the top of `get_seconds`; `none` models
the `ValueError` for an unrecognized precision. -/
def secondsScale (precision : String) : Option ℚ :=
  if precision = "s" then some 1
  else if precision = "ms" then some (1 / 1000)
  else if precision = "us" then some (1 / 1000000)
  else if precision = "ns" then some (1 / 1000000000)
  else none

/-- `get_seconds(dt1, dt2, precision)` from `sarpy/io/general/utils.py`.
An instant is modelled by its int64 reading at the target precision (so the
`astype(dtype)` conversion is the identity); the int64 subtraction wraps
around as numpy's does, and the exact value of the scaled float result is
modelled as a rational. -/
def get_seconds (dt1 dt2 : Int) (precision : String) : Option ℚ :=
  (secondsScale precision).map (fun sc => (wrap64 (dt1 - dt2) : ℚ) * sc)

/-- Python dict membership test. -/
def dictContains (d : List (String × String)) (k : String) : Bool :=
  d.any (fun kv => kv.1 == k)

/-- Python dict lookup (first binding of the key). -/
def dictGet (d : List (String × String)) (k : String) : Option String :=
  (d.find? (fun kv => kv.1 == k)).map (fun kv => kv.2)

/-- Python dict assignment `d[k] = v`: overwrite in place when the key is
present, append otherwise (insertion order is preserved). -/
def dictSet (d : List (String × String)) (k v : String) : List (String × String) :=
  if dictContains d k then d.map (fun kv => if kv.1 == k then (k, v) else kv)
  else d ++ [(k, v)]

/-- Python `dict(pairs)`: fold the pairs into an insertion-ordered dict. -/
def dictOfPairs (l : List (String × String)) : List (String × String) :=
  l.foldl (fun d kv => dictSet d kv.1 kv.2) []

/-- An XML document, abstracted to what `parse_xml_from_string` consumes
through ElementTree: its root element and the `(prefix, uri)` pairs of the
`start-ns` events of `iterparse`, in document order. -/
structure XMLDocument where
  root : String
  nsEvents : List (String × String)
deriving DecidableEq, Repr

/-- `parse_xml_from_string` from `sarpy/io/general/utils.py`: build the
namespace dict from the `start-ns` events; replace it by `None` when empty;
otherwise, when the empty prefix is a key, assign `xml_ns['default'] =
xml_ns['']`; return the root node with the dict. -/
def parse_xml_from_string (doc : XMLDocument) :
    String × Option (List (String × String)) :=
  let xml_ns := dictOfPairs doc.nsEvents
  if xml_ns.length = 0 then (doc.root, none)
  else if dictContains xml_ns "" then
    (doc.root, some (dictSet xml_ns "default" ((dictGet xml_ns "").getD "")))
  else (doc.root, some xml_ns)

/-- Python `str.lower()` (ASCII case mapping suffices here). -/
def pyLower (s : String) : String :=
  String.mk (s.data.map Char.toLower)

/-- Python `str.upper()` (ASCII case mapping suffices here). -/
def pyUpper (s : String) : String :=
  String.mk (s.data.map Char.toUpper)

/-- Whether the second list heads the first. -/
def listStartsWith : List Char → List Char → Bool
  | _, [] => true
  | [], _ :: _ => false
  | c :: cs, d :: ds => c == d && listStartsWith cs ds

/-- Python `s.startswith(t)`. -/
def pyStartsWith (s t : String) : Bool :=
  listStartsWith s.data t.data

/-- Python `s[-2:]`: the trailing two characters (the whole string when it is
shorter). -/
def pyLastTwo (s : String) : String :=
  String.mk (s.data.drop (s.data.length - 2))

/-- Left-pad a string with zeros up to the width. -/
def padZeros (w : Nat) (s : String) : String :=
  String.mk (List.replicate (w - s.data.length) '0') ++ s

/-- Python `'{:0wd}'.format(n)`: zero-padded decimal, sign included in the
width. -/
def formatZd (w : Nat) (n : Int) : String :=
  if n < 0 then "-" ++ padZeros (w - 1) (toString n.natAbs)
  else padZeros w (toString n.toNat)

/-- Python 3 `round` on an exact value: nearest integer, ties to even. -/
def pyRound (q : ℚ) : Int :=
  if q - (⌊q⌋ : ℚ) < 1 / 2 then ⌊q⌋
  else if 1 / 2 < q - (⌊q⌋ : ℚ) then ⌊q⌋ + 1
  else if ⌊q⌋ % 2 = 0 then ⌊q⌋ else ⌊q⌋ + 1

/-- `_orbits_per_day` from `sarpy/io/complex/naming/iceye.py`. -/
def _orbits_per_day : ℚ := 15

/-- `get_commercial_id(collector, cdate_str, cdate_mins, product_number)`
from `sarpy/io/complex/naming/iceye.py`.  `cdate_mins` is an exact rational
(the float arithmetic of the pass-number computation is exact for the inputs
considered here). -/
def get_commercial_id (collector cdate_str : String) (cdate_mins : ℚ)
    (product_number : Int) : Option String :=
  if !pyStartsWith (pyLower collector) "iceye" then none
  else
    let crad := "NI"
    let cvehicle :=
      if pyStartsWith (pyLower collector) "iceye-" then pyUpper (pyLastTwo collector)
      else "UN"
    let pass_number := formatZd 2 (pyRound (cdate_mins * _orbits_per_day / 1440))
    some (cdate_str ++ crad ++ cvehicle ++ pass_number ++ formatZd 3 product_number)

/-- Python `str.strip()` whitespace test (ASCII whitespace). -/
def pyIsSpace (c : Char) : Bool :=
  c == ' ' || c == '\t' || c == '\n' || c == '\r' || c == Char.ofNat 11 || c == Char.ofNat 12

/-- Python `str.strip()` on a character list: drop whitespace from both
ends. -/
def pyStripChars (l : List Char) : List Char :=
  ((l.dropWhile pyIsSpace).reverse.dropWhile pyIsSpace).reverse

/-- `parse_timestring(str_in, precision)` from `sarpy/io/general/utils.py`.
`numpy.datetime64` is external, so the parser is a parameter `npParse`
(string and precision to instant, `none` for a parse failure); `none` also
models the `IndexError` of `str_in.strip()[-1]` on an all-whitespace input. -/
def parse_timestring (npParse : String → String → Option Int)
    (str_in precision : String) : Option Int :=
  match (pyStripChars str_in.data).getLast? with
  | none => none
  | some c =>
      if c == 'Z' then npParse (String.mk str_in.data.dropLast) precision
      else npParse str_in precision

/-- A stand-in for `numpy.datetime64` used to witness `parse_timestring`
facts: it ignores any trailing run of `Z` characters. -/
def npModel (t _precision : String) : Option Int :=
  some ((t.data.reverse.dropWhile (fun c => c == 'Z')).length) 

/-- Characterization of a successful `validate_core`: the four checks pass
and the result is the wrapped triple. -/
theorem validate_core_some {a b c siz s e st : Int} :
    validate_core a b c siz = some (s, e, st) ↔
      (-siz < a ∧ a < siz) ∧ (-siz < b ∧ b ≤ siz) ∧
      ((0 < c ∧ c < siz) ∨ (-siz < c ∧ c < 0)) ∧
      ¬ ((c < 0 ∧ b > a) ∨ (c > 0 ∧ a > b)) ∧
      s = wrapIdx a siz ∧ e = wrapIdx b siz ∧ st = c := by
  unfold validate_core
  constructor
  · intro h
    split_ifs at h with h1 h2 h3 h4
    simp only [Option.some.injEq, Prod.mk.injEq] at h
    exact ⟨h1, h2, h3, h4, h.1.symm, h.2.1.symm, h.2.2.symm⟩
  · rintro ⟨h1, h2, h3, h4, hs, he, hst⟩
    rw [if_neg (not_not_intro h1), if_neg (not_not_intro h2),
      if_neg (not_not_intro h3), if_neg h4, hs, he, hst]

/-- A successful `validate_core` is refuted once any of its checks fails. -/
theorem validate_core_eq_none {a b c siz : Int}
    (h : ¬ ((-siz < a ∧ a < siz) ∧ (-siz < b ∧ b ≤ siz) ∧
      ((0 < c ∧ c < siz) ∨ (-siz < c ∧ c < 0)) ∧
      ¬ ((c < 0 ∧ b > a) ∨ (c > 0 ∧ a > b)))) :
    validate_core a b c siz = none := by
  rcases hv : validate_core a b c siz with _ | t
  · rfl
  · exfalso
    obtain ⟨s, e, st⟩ := t
    rcases validate_core_some.mp hv with ⟨h1, h2, h3, h4, -⟩
    exact h ⟨h1, h2, h3, h4⟩

/-- For `siz ≥ 2`, `validate_range(None, siz)` yields the default full range. -/
theorem validate_range_none_eq (siz : Int) (h : 2 ≤ siz) :
    validate_range RangeArg.noneArg siz = some (0, siz, 1) := by
  simp only [validate_range, extractRange, Option.getD_none]
  refine validate_core_some.mpr ⟨by omega, by omega, by omega, by omega, ?_, ?_, rfl⟩
  · unfold wrapIdx; rw [if_neg (by omega)]
  · unfold wrapIdx; rw [if_neg (by omega)]

/-- C1, counterexample: the claim predicts `validate_range(-1, 2) = (0, 2, -1)`
for the negative step `-1` with `-2 < -1 < 0`, but the code raises `ValueError`
(the direction check fires: step `< 0` with stop `2 >` start `0`). -/
theorem sarpy_C1_counterexample :
    validate_range (RangeArg.intArg (-1)) 2 = none ∧
    validate_range (RangeArg.intArg (-1)) 2 ≠ some (0, 2, -1) := by decide

/-- C1, amended: for integer `k` with `0 < k < N`, `validate_range(k, N)`
returns `(0, N, k)`; for `-N < k < 0` it raises `ValueError`, because the
defaulted `start = 0`, `stop = N` conflict with the negative step. -/
theorem sarpy_C1_int_step (k N : Int) :
    (0 < k ∧ k < N → validate_range (RangeArg.intArg k) N = some (0, N, k)) ∧
    (-N < k ∧ k < 0 → validate_range (RangeArg.intArg k) N = none) := by
  constructor
  · intro h
    simp only [validate_range, extractRange, Option.getD_none, Option.getD_some]
    refine validate_core_some.mpr ⟨by omega, by omega, by omega, by omega, ?_, ?_, rfl⟩
    · unfold wrapIdx; rw [if_neg (by omega)]
    · unfold wrapIdx; rw [if_neg (by omega)]
  · intro h
    simp only [validate_range, extractRange, Option.getD_none, Option.getD_some]
    exact validate_core_eq_none (by omega)

/-- Witness for `sarpy_C1_int_step` at `k = 1, N = 2` and `k = -1, N = 2`. -/
theorem sarpy_C1_witness :
    validate_range (RangeArg.intArg 1) 2 = some (0, 2, 1) ∧
    validate_range (RangeArg.intArg (-1)) 2 = none :=
  ⟨(sarpy_C1_int_step 1 2).1 (by decide), (sarpy_C1_int_step (-1) 2).2 (by decide)⟩

/-- C2, counterexample: the claim predicts `ValueError` for extracted
`start = stop` with a nonzero step in the "wrong" direction, but
`validate_range((2, 2, -1), 5)` succeeds and returns `(2, 2, -1)`: the
direction check uses strict inequalities and never fires when
`start = stop`. -/
theorem sarpy_C2_counterexample :
    validate_range (RangeArg.tuple3 2 2 (-1)) 5 = some (2, 2, -1) ∧
    validate_range (RangeArg.tuple3 2 2 (-1)) 5 ≠ none := by decide

/-- C2, amended: `validate_range` raises `ValueError` whenever the extracted
step is `0`, whenever the extracted start and stop are in strictly the wrong
order for the nonzero step (`stop > start` with `step < 0`, or
`start > stop` with `step > 0` — but never for `start = stop`), and whenever
the extracted start or stop lies outside `[-N, N]`. -/
theorem sarpy_C2_failures (a b c N : Int) :
    (c = 0 → validate_range (RangeArg.tuple3 a b c) N = none) ∧
    (c < 0 ∧ b > a → validate_range (RangeArg.tuple3 a b c) N = none) ∧
    (0 < c ∧ a > b → validate_range (RangeArg.tuple3 a b c) N = none) ∧
    (a > N ∨ a < -N → validate_range (RangeArg.tuple3 a b c) N = none) ∧
    (b > N ∨ b < -N → validate_range (RangeArg.tuple3 a b c) N = none) := by
  refine ⟨?_, ?_, ?_, ?_, ?_⟩ <;> intro h <;>
    simp only [validate_range, extractRange, Option.getD_some] <;>
    exact validate_core_eq_none (by omega)

/-- Witness for `sarpy_C2_failures` on five concrete failing arguments. -/
theorem sarpy_C2_witness :
    validate_range (RangeArg.tuple3 0 3 0) 5 = none ∧
    validate_range (RangeArg.tuple3 0 3 (-1)) 5 = none ∧
    validate_range (RangeArg.tuple3 3 0 1) 5 = none ∧
    validate_range (RangeArg.tuple3 6 3 1) 5 = none ∧
    validate_range (RangeArg.tuple3 0 7 1) 5 = none :=
  ⟨(sarpy_C2_failures 0 3 0 5).1 rfl,
   (sarpy_C2_failures 0 3 (-1) 5).2.1 (by decide),
   (sarpy_C2_failures 3 0 1 5).2.2.1 (by decide),
   (sarpy_C2_failures 6 3 1 5).2.2.2.1 (by decide),
   (sarpy_C2_failures 0 7 1 5).2.2.2.2 (by decide)⟩

/-- C3, counterexample: the claim predicts `validate_range(None, 1) = (0, 1, 1)`
for the positive length `1`, but the code raises `ValueError`: the step check
demands `0 < step < siz`, and `0 < 1 < 1` fails. -/
theorem sarpy_C3_counterexample :
    validate_range RangeArg.noneArg 1 = none ∧
    validate_range RangeArg.noneArg 1 ≠ some (0, 1, 1) := by decide

/-- C3, amended: `validate_range(None, N)` returns `(0, N, 1)` for every
`N ≥ 2` (at `N = 1` the step bound `0 < 1 < N` fails and the code raises). -/
theorem sarpy_C3_default (N : Int) (h : 2 ≤ N) :
    validate_range RangeArg.noneArg N = some (0, N, 1) :=
  validate_range_none_eq N h

/-- Witness for `sarpy_C3_default` at `N = 2`. -/
theorem sarpy_C3_witness : validate_range RangeArg.noneArg 2 = some (0, 2, 1) :=
  sarpy_C3_default 2 (by decide)

/-- C5: any triple returned by `validate_range` has `0 ≤ start < siz` and
`0 ≤ stop ≤ siz`: the wraparound resolves all indices into `[0, siz]`. -/
theorem sarpy_C5_normalized (arg : RangeArg) (siz s e st : Int)
    (h : validate_range arg siz = some (s, e, st)) :
    0 ≤ s ∧ s < siz ∧ 0 ≤ e ∧ e ≤ siz := by
  cases arg <;>
    simp only [validate_range, extractRange, Option.getD_none, Option.getD_some] at h <;>
    rcases validate_core_some.mp h with ⟨h1, h2, h3, h4, hs, he, hst⟩ <;>
    unfold wrapIdx at hs he <;> split_ifs at hs he <;> omega

/-- Witness for `sarpy_C5_normalized` at `arg = (-1, -1, 1)`, `siz = 5`. -/
theorem sarpy_C5_witness : 0 ≤ (4 : Int) ∧ (4 : Int) < 5 ∧ 0 ≤ (4 : Int) ∧ (4 : Int) ≤ 5 :=
  sarpy_C5_normalized (RangeArg.tuple3 (-1) (-1) 1) 5 4 4 1 (by decide)

/-- C10: for `siz ≥ 2`, `reverse_range(None, siz) = (siz - 1, -1, -1)`, whose
stop index `-1` is negative, so the output is not itself a normalized range
with all indices in `[0, siz]`. -/
theorem sarpy_C10_reverse_none (siz : Int) (h : 2 ≤ siz) :
    reverse_range RangeArg.noneArg siz = some (siz - 1, -1, -1) ∧
    ¬ (0 ≤ (-1 : Int) ∧ (-1 : Int) ≤ siz) := by
  refine ⟨?_, by omega⟩
  unfold reverse_range
  rw [validate_range_none_eq siz h]
  simp only [Option.map_some', Option.some.injEq, Prod.mk.injEq]
  refine ⟨by ring, by ring, ?_⟩
  trivial

/-- Witness for `sarpy_C10_reverse_none` at `siz = 2`. -/
theorem sarpy_C10_witness :
    reverse_range RangeArg.noneArg 2 = some (2 - 1, -1, -1) ∧
    ¬ (0 ≤ (-1 : Int) ∧ (-1 : Int) ≤ 2) :=
  sarpy_C10_reverse_none 2 (by decide)

/-- C4, counterexample: for the full default range (`None`, `siz = 2`,
normalized to `(0, 2, 1)` with traversal `[0, 1]`), the chain
reverse / re-normalize / reverse yields `(0, 0, 1)`, whose traversal is
empty: it is neither the original traversal set nor its reversal `[1, 0]`
(re-normalization wraps the reflected stop `-1` up to `siz - 1`, collapsing
the range).  For `(1, 5, 1)` with `siz = 5` the chain fails outright. -/
theorem sarpy_C4_counterexample :
    validate_range RangeArg.noneArg 2 = some (0, 2, 1) ∧
    rangeList 0 2 1 = [0, 1] ∧
    reverseTwice RangeArg.noneArg 2 = some (0, 0, 1) ∧
    rangeList 0 0 1 = [] ∧
    ([] : List Int) ≠ [1, 0] ∧ ([] : List Int) ≠ [0, 1] ∧
    reverseTwice (RangeArg.tuple3 1 5 1) 5 = none := by decide

/-- C4, amended: when `validate_range arg siz` succeeds with `(s, e, st)`,
the normalized triple re-validates to itself, and `e < siz`, the chain
reverse / re-normalize / reverse returns exactly `(s, e, st)`: the traversal
set is preserved and traversed in the same (not reversed) order. -/
theorem sarpy_C4_reverse_twice (arg : RangeArg) (siz s e st : Int)
    (h : validate_range arg siz = some (s, e, st))
    (hfix : validate_range (tripleArg (s, e, st)) siz = some (s, e, st))
    (he : e < siz) :
    reverseTwice arg siz = some (s, e, st) ∧
    (reverseTwice arg siz).map (fun t => rangeList t.1 t.2.1 t.2.2)
      = some (rangeList s e st) := by
  have hcore : validate_core s e st siz = some (s, e, st) := by
    simpa only [tripleArg, validate_range, extractRange, Option.getD_some] using hfix
  rcases validate_core_some.mp hcore with ⟨h1, h2, h3, h4, hs0, he0, -⟩
  have hs1 : 0 ≤ s := by unfold wrapIdx at hs0; split_ifs at hs0 <;> omega
  have he1 : 0 ≤ e := by unfold wrapIdx at he0; split_ifs at he0 <;> omega
  have hrev1 : reverse_range arg siz = some (siz - 1 - s, siz - 1 - e, -st) := by
    unfold reverse_range; rw [h]; rfl
  have hval2 : validate_range (tripleArg (siz - 1 - s, siz - 1 - e, -st)) siz
      = some (siz - 1 - s, siz - 1 - e, -st) := by
    simp only [tripleArg, validate_range, extractRange, Option.getD_some]
    refine validate_core_some.mpr ⟨by omega, by omega, by omega, by omega, ?_, ?_, rfl⟩
    · unfold wrapIdx; rw [if_neg (by omega)]
    · unfold wrapIdx; rw [if_neg (by omega)]
  have hrev2 : reverse_range (tripleArg (siz - 1 - s, siz - 1 - e, -st)) siz
      = some (s, e, st) := by
    unfold reverse_range
    rw [hval2]
    simp only [Option.map_some', Option.some.injEq, Prod.mk.injEq]
    exact ⟨by ring, by ring, by ring⟩
  have hchain : reverseTwice arg siz = some (s, e, st) := by
    unfold reverseTwice
    rw [hrev1, Option.some_bind, hval2, Option.some_bind, hrev2]
  exact ⟨hchain, by rw [hchain]; rfl⟩

/-- Witness for `sarpy_C4_reverse_twice` at `arg = (1, 3, 1)`, `siz = 5`. -/
theorem sarpy_C4_witness :
    reverseTwice (RangeArg.tuple3 1 3 1) 5 = some (1, 3, 1) ∧
    (reverseTwice (RangeArg.tuple3 1 3 1) 5).map (fun t => rangeList t.1 t.2.1 t.2.2)
      = some (rangeList 1 3 1) :=
  sarpy_C4_reverse_twice (RangeArg.tuple3 1 3 1) 5 1 3 1 (by decide) (by decide) (by decide)

theorem secondsScale_s : secondsScale "s" = some 1 := by
  unfold secondsScale; rw [if_pos rfl]

theorem secondsScale_ms : secondsScale "ms" = some (1 / 1000) := by
  unfold secondsScale; rw [if_neg (by decide), if_pos rfl]

theorem secondsScale_us : secondsScale "us" = some (1 / 1000000) := by
  unfold secondsScale; rw [if_neg (by decide), if_neg (by decide), if_pos rfl]

theorem secondsScale_ns : secondsScale "ns" = some (1 / 1000000000) := by
  unfold secondsScale
  rw [if_neg (by decide), if_neg (by decide), if_neg (by decide), if_pos rfl]

/-- C6, counterexample: at instants whose int64 difference overflows
(`±2^62` at precision `'s'`), the wrapped difference is `-2^63` in both
directions, so `get_seconds(t1, t2, 's')` is not the negation of
`get_seconds(t2, t1, 's')`. -/
theorem sarpy_C6_counterexample :
    get_seconds (-4611686018427387904) 4611686018427387904 "s"
      = some (-9223372036854775808) ∧
    get_seconds 4611686018427387904 (-4611686018427387904) "s"
      = some (-9223372036854775808) ∧
    ¬ (get_seconds (-4611686018427387904) 4611686018427387904 "s"
        = (get_seconds 4611686018427387904 (-4611686018427387904) "s").map
            (fun x => -x)) := by
  have h1 : get_seconds (-4611686018427387904) 4611686018427387904 "s"
      = some (-9223372036854775808) := by
    unfold get_seconds
    rw [secondsScale_s, Option.map_some']
    rw [show wrap64 (-4611686018427387904 - 4611686018427387904) = -9223372036854775808
      from by decide]
    norm_num
  have h2 : get_seconds 4611686018427387904 (-4611686018427387904) "s"
      = some (-9223372036854775808) := by
    unfold get_seconds
    rw [secondsScale_s, Option.map_some']
    rw [show wrap64 (4611686018427387904 - -4611686018427387904) = -9223372036854775808
      from by decide]
    norm_num
  refine ⟨h1, h2, ?_⟩
  rw [h1, h2, Option.map_some']
  intro hc
  rw [Option.some.injEq] at hc
  norm_num at hc

/-- C6, amended: whenever the int64 difference of the two instants does not
overflow (absolute value below `2^63`), `get_seconds` is antisymmetric in its
two instants for each precision `'s'`, `'ms'`, `'us'`, `'ns'`; and
`get_seconds(t, t, 'us') = 0` unconditionally. -/
theorem sarpy_C6_seconds (dt1 dt2 : Int) (p : String)
    (hp : p = "s" ∨ p = "ms" ∨ p = "us" ∨ p = "ns")
    (hno : -9223372036854775808 < dt1 - dt2 ∧ dt1 - dt2 < 9223372036854775808) :
    get_seconds dt1 dt2 p = (get_seconds dt2 dt1 p).map (fun x => -x) ∧
    get_seconds dt1 dt1 "us" = some 0 := by
  have hw1 : wrap64 (dt1 - dt2) = dt1 - dt2 := by unfold wrap64; omega
  have hw2 : wrap64 (dt2 - dt1) = -(dt1 - dt2) := by unfold wrap64; omega
  have hw0 : wrap64 (dt1 - dt1) = 0 := by unfold wrap64; omega
  have key : ∀ sc : ℚ, secondsScale p = some sc →
      get_seconds dt1 dt2 p = (get_seconds dt2 dt1 p).map (fun x => -x) := by
    intro sc hsc
    unfold get_seconds
    rw [hsc, Option.map_some', Option.map_some', Option.map_some', hw1, hw2]
    rw [Option.some.injEq]
    push_cast
    ring
  constructor
  · rcases hp with h | h | h | h <;> subst h
    · exact key 1 secondsScale_s
    · exact key (1 / 1000) secondsScale_ms
    · exact key (1 / 1000000) secondsScale_us
    · exact key (1 / 1000000000) secondsScale_ns
  · unfold get_seconds
    rw [secondsScale_us, Option.map_some', hw0]
    norm_num

/-- Witness for `sarpy_C6_seconds` at `dt1 = 5`, `dt2 = 3`, `p = "us"`. -/
theorem sarpy_C6_witness :
    get_seconds 5 3 "us" = (get_seconds 3 5 "us").map (fun x => -x) ∧
    get_seconds 5 5 "us" = some 0 :=
  sarpy_C6_seconds 5 3 "us" (Or.inr (Or.inr (Or.inl rfl))) (by decide)

/-- C8: `get_commercial_id('ICEYE-X2', '20210101', 720.0, 5)` is the date
string followed by `'NI'`, the vehicle code `'X2'`, the two-digit pass number
`'08'` (the zero-padded `round(720.0 * 15 / 1440) = round(7.5) = 8`), and the
zero-padded product number `'005'`; and any collector whose lowercasing does
not start with `'iceye'` yields `None`. -/
theorem sarpy_C8_commercial_id :
    get_commercial_id "ICEYE-X2" "20210101" 720 5
      = some ("20210101" ++ "NI" ++ "X2" ++ "08" ++ "005") ∧
    formatZd 2 (pyRound (720 * _orbits_per_day / 1440)) = "08" ∧
    formatZd 3 5 = "005" ∧
    (∀ collector cdate_str : String, ∀ cdate_mins : ℚ, ∀ pn : Int,
      pyStartsWith (pyLower collector) "iceye" = false →
      get_commercial_id collector cdate_str cdate_mins pn = none) := by
  have hr : pyRound (720 * _orbits_per_day / 1440) = 8 := by
    norm_num [pyRound, _orbits_per_day]
  refine ⟨?_, ?_, by decide, ?_⟩
  · simp only [get_commercial_id, hr]
    decide
  · rw [hr]
    decide
  · intro collector cdate_str cdate_mins pn h
    unfold get_commercial_id
    rw [h]
    rfl

/-- Witness for `sarpy_C8_commercial_id` at collector `'OtherSensor'`. -/
theorem sarpy_C8_witness :
    get_commercial_id "OtherSensor" "20210101" 720 5 = none :=
  sarpy_C8_commercial_id.2.2.2 "OtherSensor" "20210101" 720 5 (by decide)

/-- A successful dict lookup implies membership. -/
theorem dictGet_some_contains {d : List (String × String)} {k u : String}
    (h : dictGet d k = some u) : dictContains d k = true := by
  unfold dictGet at h
  unfold dictContains
  rcases hf : d.find? (fun kv => kv.1 == k) with _ | kv
  · rw [hf] at h
    exact Option.noConfusion h
  · exact List.any_eq_true.mpr
      ⟨kv, List.mem_of_find?_eq_some hf, (List.find?_eq_some.mp hf).1⟩

/-- Overwriting every binding of `k` makes the first `k`-binding `(k, v)`
exactly when `k` was present. -/
theorem find_map_overwrite (k v : String) (d : List (String × String)) :
    (d.map (fun kv => if kv.1 == k then (k, v) else kv)).find? (fun kv => kv.1 == k)
      = if d.any (fun kv => kv.1 == k) then some (k, v) else none := by
  induction d with
  | nil => rfl
  | cons a d ih =>
    rw [List.map_cons, List.any_cons]
    by_cases ha : (a.1 == k) = true
    · rw [if_pos ha, List.find?_cons_of_pos _ (by simp), ha, Bool.true_or, if_pos rfl]
    · have ha2 : (a.1 == k) = false := by simpa using ha
      rw [if_neg (by simp [ha2]), List.find?_cons_of_neg _ (by simp [ha2]), ih,
        ha2, Bool.false_or]

/-- Python `d[k] = v` followed by `d[k]` reads back `v`. -/
theorem dictGet_dictSet_self (d : List (String × String)) (k v : String) :
    dictGet (dictSet d k v) k = some v := by
  unfold dictSet
  split_ifs with h
  · unfold dictGet
    rw [find_map_overwrite]
    unfold dictContains at h
    rw [if_pos h]
    rfl
  · unfold dictGet
    unfold dictContains at h
    have hnone : d.find? (fun kv => kv.1 == k) = none := by
      rw [List.find?_eq_none]
      intro x hx
      intro hpx
      exact h (List.any_eq_true.mpr ⟨x, hx, hpx⟩)
    rw [List.find?_append, hnone]
    simp

/-- Python `d[k] = v` leaves membership of other keys unchanged. -/
theorem dictContains_dictSet_ne (d : List (String × String)) (k v k2 : String)
    (hne : (k == k2) = false) :
    dictContains (dictSet d k v) k2 = dictContains d k2 := by
  unfold dictSet
  split_ifs with h
  · unfold dictContains
    rw [List.any_map]
    have hfun : ((fun kv : String × String => kv.1 == k2) ∘
        (fun kv => if kv.1 == k then (k, v) else kv))
        = fun kv : String × String => kv.1 == k2 := by
      funext kv
      simp only [Function.comp]
      by_cases hkv : (kv.1 == k) = true
      · rw [if_pos hkv, show kv.1 = k from by simpa using hkv]
      · rw [if_neg (by simpa using hkv)]
    rw [hfun]
  · unfold dictContains
    rw [List.any_append]
    simp [hne]

/-- C7, counterexample: the claim says the empty prefix is renamed to
`"default"`, but on a document declaring a default namespace the returned
mapping still contains the empty prefix as a key: `xml_ns['default'] =
xml_ns['']` copies the binding, it does not remove `''`. -/
theorem sarpy_C7_counterexample :
    (parse_xml_from_string ⟨"root", [("", "urn:example")]⟩).2
      = some [("", "urn:example"), ("default", "urn:example")] ∧
    dictContains [("", "urn:example"), ("default", "urn:example")] "" = true := by
  decide

/-- C7, amended: `parse_xml_from_string` returns the root element unchanged;
a document with no namespace declarations gets no namespace mapping
(`None`); and on a document whose declarations bind the empty prefix to a
URI `u`, the returned mapping binds `"default"` to `u` while the `""` key
also remains present (the empty prefix is copied to `"default"`, not
renamed). -/
theorem sarpy_C7_namespaces (doc : XMLDocument) :
    (parse_xml_from_string doc).1 = doc.root ∧
    (doc.nsEvents = [] → (parse_xml_from_string doc).2 = none) ∧
    (∀ u, dictGet (dictOfPairs doc.nsEvents) "" = some u →
      ∃ m, (parse_xml_from_string doc).2 = some m ∧
        dictGet m "default" = some u ∧ dictContains m "" = true) := by
  refine ⟨?_, ?_, ?_⟩
  · simp only [parse_xml_from_string]
    split_ifs <;> rfl
  · intro h
    simp [parse_xml_from_string, h, dictOfPairs]
  · intro u hget
    have hc : dictContains (dictOfPairs doc.nsEvents) "" = true :=
      dictGet_some_contains hget
    have hlen : ¬ (dictOfPairs doc.nsEvents).length = 0 := by
      intro h0
      rw [List.length_eq_zero] at h0
      rw [h0] at hc
      exact absurd hc (by decide)
    refine ⟨dictSet (dictOfPairs doc.nsEvents) "default" u, ?_, ?_, ?_⟩
    · unfold parse_xml_from_string
      rw [if_neg hlen, if_pos hc, hget]
      rfl
    · exact dictGet_dictSet_self _ "default" u
    · rw [dictContains_dictSet_ne _ "default" u "" (by decide)]
      exact hc

/-- Witness for `sarpy_C7_namespaces`: a document with no declarations, and
one declaring the default namespace `"u"`. -/
theorem sarpy_C7_witness :
    (parse_xml_from_string ⟨"r", []⟩).2 = none ∧
    (∃ m, (parse_xml_from_string ⟨"r", [("", "u")]⟩).2 = some m ∧
      dictGet m "default" = some "u" ∧ dictContains m "" = true) :=
  ⟨(sarpy_C7_namespaces ⟨"r", []⟩).2.1 rfl,
   (sarpy_C7_namespaces ⟨"r", [("", "u")]⟩).2.2 "u" (by decide)⟩

/-- Dropping a matching run from the front of `l ++ [c]` keeps the final
non-matching `c`. -/
theorem dropWhile_append_last (p : Char → Bool) (l : List Char) (c : Char)
    (hc : p c = false) :
    ∃ l2, (l ++ [c]).dropWhile p = l2 ++ [c] := by
  induction l with
  | nil =>
    refine ⟨[], ?_⟩
    simp [List.dropWhile_cons, hc]
  | cons a l ih =>
    by_cases ha : p a = true
    · obtain ⟨l2, h2⟩ := ih
      refine ⟨l2, ?_⟩
      rw [List.cons_append, List.dropWhile_cons, if_pos ha, h2]
    · refine ⟨a :: l, ?_⟩
      rw [List.cons_append, List.dropWhile_cons, if_neg ha]

/-- Stripping whitespace from both ends of `l ++ [c]` (with `c` not
whitespace) strips only from the front and keeps the final `c`. -/
theorem pyStrip_append_last (l : List Char) (c : Char) (hc : pyIsSpace c = false) :
    ∃ l2, pyStripChars (l ++ [c]) = l2 ++ [c] := by
  obtain ⟨l2, h2⟩ := dropWhile_append_last pyIsSpace l c hc
  refine ⟨l2, ?_⟩
  unfold pyStripChars
  rw [h2, List.reverse_append]
  simp only [List.reverse_cons, List.reverse_nil, List.nil_append, List.singleton_append]
  rw [List.dropWhile_cons, if_neg (by simp [hc])]
  rw [List.reverse_cons, List.reverse_reverse]

/-- C9: with the external `numpy.datetime64` abstracted as any parser that
ignores one trailing `'Z'` (its documented UTC handling), `parse_timestring`
on `s ++ 'Z'` and on `s` both parse to `npParse s`, for every non-empty `s`
without trailing whitespace: the optional trailing `'Z'` is stripped before
parsing and does not change the parsed value. -/
theorem sarpy_C9_timestring (npParse : String → String → Option Int)
    (hZ : ∀ t p, npParse (t ++ "Z") p = npParse t p)
    (s p : String) (h1 : s.data ≠ [])
    (h2 : pyIsSpace (s.data.getLast h1) = false) :
    parse_timestring npParse (s ++ "Z") p = npParse s p ∧
    parse_timestring npParse s p = npParse s p := by
  obtain ⟨l0, d, hd⟩ : ∃ l0 d, s.data = l0 ++ [d] := by
    rcases List.eq_nil_or_concat s.data with h | ⟨L, b, h⟩
    · exact absurd h h1
    · exact ⟨L, b, by rw [h, List.concat_eq_append]⟩
  have hds : s.data.getLast h1 = d := by
    have hq := List.getLast?_eq_getLast s.data h1
    have hq2 : s.data.getLast? = some d := by
      rw [hd]
      exact List.getLast?_concat l0
    rw [hq] at hq2
    exact (Option.some.injEq _ _).mp hq2
  have hd2 : pyIsSpace d = false := hds ▸ h2
  constructor
  · unfold parse_timestring
    rw [String.data_append s "Z"]
    rw [show ("Z" : String).data = ['Z'] from rfl]
    obtain ⟨l2, h2s⟩ := pyStrip_append_last s.data 'Z' (by decide)
    rw [h2s, List.getLast?_concat]
    dsimp only
    rw [if_pos (by decide), List.dropLast_concat]
  · unfold parse_timestring
    rw [hd]
    obtain ⟨l2, h2s⟩ := pyStrip_append_last l0 d hd2
    rw [h2s, List.getLast?_concat]
    dsimp only
    have hs : s = String.mk (l0 ++ [d]) := by
      rw [← hd]
    by_cases hdz : d = 'Z'
    · subst hdz
      rw [if_pos (show ('Z' == 'Z') = true from by decide), List.dropLast_concat, hs]
      rw [show String.mk (l0 ++ ['Z']) = String.mk l0 ++ "Z" from rfl, hZ]
    · rw [if_neg (by simp [hdz])]

/-- The stand-in parser `npModel` ignores a trailing `'Z'`. -/
theorem npModel_stripZ : ∀ t p, npModel (t ++ "Z") p = npModel t p := by
  intro t p
  unfold npModel
  rw [String.data_append t "Z"]
  rw [show ("Z" : String).data = ['Z'] from rfl]
  rw [List.reverse_append]
  simp only [List.reverse_cons, List.reverse_nil, List.nil_append, List.singleton_append]
  rw [List.dropWhile_cons, if_pos (by decide)]

/-- Witness for `sarpy_C9_timestring` on the timestamp `"2021-01-01"` with
the stand-in parser `npModel`. -/
theorem sarpy_C9_witness :
    parse_timestring npModel ("2021-01-01" ++ "Z") "us" = npModel "2021-01-01" "us" ∧
    parse_timestring npModel "2021-01-01" "us" = npModel "2021-01-01" "us" :=
  sarpy_C9_timestring npModel npModel_stripZ "2021-01-01" "us" (by decide) (by decide)
